import Mathlib

/-!
Verification of the multi-agent grid-world simulation core (`gridworld.py`).

The embedding below is a direct shallow translation of the Python source:
`GridWorld.trans_function`, `GridWorld._reward_agent` and `GridWorld.step`
(move proposal, unconditional application, iterative conflict resolution,
battery/charging handling, and per-agent termination flags).

Positions are pairs of integers `(row, col)`; the grid is a total function
from coordinates to cell codes (`1` = obstacle, `2` = ground charging
station, anything else free), together with its shape `rows × cols`.
The shared numpy random stream is modelled as a fixed sequence of draws
`noise : Nat → Int` together with a cursor counting the draws consumed.
Rewards are rationals.  The unbounded `while any(illegals)` loop of
`GridWorld.step` is modelled with explicit fuel `agents.length + 1`;
the termination development below proves that this much fuel always
suffices, so the fuelled function coincides with the Python loop.
-/

/-- Cell code of an obstacle (`GridLegend.OBSTACLE`). -/
def OBSTACLE : Int := 1

/-- Cell code of a ground charging station (`GridLegend.GCS`). -/
def GCS : Int := 2

/-- Full battery level (`GridworldAgent.BATTERY`). -/
def BATTERY : Int := 150

/-- The reward table `GridWorld.rewards`. -/
structure RewardTable where
  free : ℚ
  obstacles : ℚ
  goal : ℚ
  out_of_bounds : ℚ
  battery_depleted : ℚ
deriving DecidableEq

/-- The default reward values set in `GridWorld.__init__`. -/
def rewardsDefault : RewardTable :=
  { free := -4/100, obstacles := -75/100, goal := 10, out_of_bounds := -8/10,
    battery_depleted := -10 }

/-- Per-agent state (`GridworldAgent`): position, goal, battery, done flag. -/
structure GridworldAgent where
  pos : Int × Int
  goal : Int × Int
  battery : Int
  done : Bool
deriving DecidableEq

instance : Inhabited GridworldAgent := ⟨⟨(0, 0), (0, 0), 0, false⟩⟩

/-- Environment state of `GridWorld`: grid shape and contents, wind configuration,
the shared random stream with its cursor, rewards, counters, and the roster. -/
structure GridWorld where
  rows : Nat
  cols : Nat
  cell : Int → Int → Int
  colWind : Int → Int
  noise : Nat → Int
  rngCursor : Nat
  rewards : RewardTable
  step_count : Nat
  max_steps : Nat
  agents : List GridworldAgent

/-- The `(reward, illegal, done)` triple computed by `_reward_agent`. -/
abbrev EvalT := ℚ × Bool × Bool

/-- Default triple: reward `0` (numpy zeros), not illegal, not done. -/
def eDflt : EvalT := ((0 : ℚ), false, false)

/-- In-bounds test `0 <= n < shape[0] and 0 <= m < shape[1]`. -/
def inBoundsPos (gw : GridWorld) (p : Int × Int) : Prop :=
  0 ≤ p.1 ∧ p.1 < (gw.rows : Int) ∧ 0 ≤ p.2 ∧ p.2 < (gw.cols : Int)

instance (gw : GridWorld) (p : Int × Int) : Decidable (inBoundsPos gw p) := by
  unfold inBoundsPos; infer_instance

/-- `(n, m) in [self.agents[j].pos for j in range(len(self.agents)) if j != i]`:
does the position `p` coincide with the position of a different agent
(done or not)? -/
def collideB (agents : List GridworldAgent) (i : Nat) (p : Int × Int) : Bool :=
  (List.range agents.length).any fun j =>
    decide (j ≠ i) && decide ((agents.getD j default).pos = p)

/-- The branch cascade of `_reward_agent` before the battery override:
out-of-bounds, obstacle-or-collision, goal, free. -/
def rewardBase (gw : GridWorld) (agents : List GridworldAgent) (i : Nat) : EvalT :=
  if ¬ inBoundsPos gw (agents.getD i default).pos then
    (gw.rewards.out_of_bounds, true, false)
  else if gw.cell (agents.getD i default).pos.1 (agents.getD i default).pos.2 = OBSTACLE ∨
      collideB agents i (agents.getD i default).pos = true then
    (gw.rewards.obstacles, true, false)
  else if (agents.getD i default).pos = (agents.getD i default).goal then
    (gw.rewards.goal, false, true)
  else (gw.rewards.free, false, false)

/-- `GridWorld._reward_agent`: reward, illegal flag and done flag of agent `i`
against the roster `agents`.  The battery check at the end overrides reward
and done but keeps the illegal flag of the selected branch. -/
def reward_agent (gw : GridWorld) (agents : List GridworldAgent) (i : Nat) : EvalT :=
  if (agents.getD i default).battery ≤ 0 then
    (gw.rewards.battery_depleted, (rewardBase gw agents i).2.1, true)
  else rewardBase gw agents i

/-- `GridWorld.trans_function`: propose the next position from a position,
an action value and a noise draw.  Legal actions are `0` (left), `1` (right),
`2` (up), `3` (down); wind applies only when the static bias of the current
row is nonzero, and always to the column.  Any other action value falls
through every branch and the position is returned unchanged (the
`UnknownAction` exception declared in the source is never raised). -/
def trans_function (gw : GridWorld) (state : Int × Int) (action : Int) (noise : Int) :
    Int × Int :=
  let n := state.1
  let m := state.2
  let wind := if gw.colWind n ≠ 0 then gw.colWind n + noise else 0
  if action = 2 then (n - 1, m + wind)
  else if action = 3 then (n + 1, m + wind)
  else if action = 0 then (n, m - 1 + wind)
  else if action = 1 then (n, m + 1 + wind)
  else (n, m)

/-- The move-proposal loop of `step`: for each agent in order, a done agent
keeps its position and consumes nothing; otherwise one draw is taken from
the shared stream (cursor `k`) and `trans_function` proposes the move.
Returns the list of proposed positions and the new cursor. -/
def computeMoves (gw : GridWorld) : List (GridworldAgent × Int) → Nat →
    List (Int × Int) × Nat
  | [], k => ([], k)
  | (a, act) :: rest, k =>
    if a.done then
      let r := computeMoves gw rest k
      (a.pos :: r.1, r.2)
    else
      let mv := trans_function gw a.pos act (gw.noise k)
      let r := computeMoves gw rest (k + 1)
      (mv :: r.1, r.2)

/-- The apply loop of `step`: every non-done agent unconditionally takes its
proposed position and pays the 10-unit battery cost; done agents are skipped. -/
def applyMoves : List GridworldAgent → List (Int × Int) → List GridworldAgent
  | [], _ => []
  | a :: rest, [] => a :: rest
  | a :: rest, mv :: mrest =>
    (if a.done then a else { a with pos := mv, battery := a.battery - 10 }) ::
      applyMoves rest mrest

/-- The first evaluation pass of `step`: done agents keep reward `0`
(numpy zeros), no illegal flag, and their done flag; every other agent is
evaluated by `_reward_agent` against the just-applied roster. -/
def evalInit (gw : GridWorld) (agents : List GridworldAgent) : List EvalT :=
  (List.range agents.length).map fun i =>
    let a := agents.getD i default
    if a.done then ((0 : ℚ), false, a.done) else reward_agent gw agents i

/-- `any(illegals)`. -/
def anyIll (evals : List EvalT) : Bool := evals.any fun e => e.2.1

/-- The cancel phase of the conflict loop: every flagged agent returns to its
recorded old position (flags are cleared by the subsequent re-evaluation). -/
def revertIllegal (agents : List GridworldAgent) (oldPos : List (Int × Int))
    (evals : List EvalT) : List GridworldAgent :=
  (List.range agents.length).map fun i =>
    let a := agents.getD i default
    if (evals.getD i eDflt).2.1 then { a with pos := oldPos.getD i ((0 : Int), (0 : Int)) }
    else a

/-- The re-evaluation phase of the conflict loop: agents that are done or
whose position equals their old position are skipped (keeping their previous
reward and done value, with the illegal flag cleared); all others are
re-evaluated against the current roster. -/
def reevalPass (gw : GridWorld) (agents : List GridworldAgent)
    (oldPos : List (Int × Int)) (prev : List EvalT) : List EvalT :=
  (List.range agents.length).map fun i =>
    let a := agents.getD i default
    let pe := prev.getD i eDflt
    if a.done = true ∨ a.pos = oldPos.getD i ((0 : Int), (0 : Int)) then
      (pe.1, false, pe.2.2)
    else reward_agent gw agents i

/-- The `while any(illegals)` loop of `step`, with explicit fuel: cancel the
flagged moves, re-evaluate, repeat.  The termination theorems below show
that fuel `agents.length + 1` always suffices, so this function is the
Python loop. -/
def conflictLoop (gw : GridWorld) (oldPos : List (Int × Int)) :
    Nat → List GridworldAgent × List EvalT → List GridworldAgent × List EvalT
  | 0, st => st
  | fuel + 1, st =>
    if anyIll st.2 then
      let agents' := revertIllegal st.1 oldPos st.2
      conflictLoop gw oldPos fuel (agents', reevalPass gw agents' oldPos st.2)
    else st

/-- The closing loop of `step`: skip done agents; a non-done agent standing
on a charging station has its battery reset to `BATTERY`; then the done flag
computed by the evaluations is installed. -/
def finalPhase (gw : GridWorld) (agents : List GridworldAgent)
    (evals : List EvalT) : List GridworldAgent :=
  (List.range agents.length).map fun i =>
    let a := agents.getD i default
    if a.done then a
    else
      let a' := if gw.cell a.pos.1 a.pos.2 = GCS then { a with battery := BATTERY } else a
      { a' with done := (evals.getD i eDflt).2.2 }

/-- Move proposals of one `step` call: proposed positions and new cursor. -/
def stepMoves (gw : GridWorld) (actions : List Int) : List (Int × Int) × Nat :=
  computeMoves gw (gw.agents.zip actions) gw.rngCursor

/-- The `old_pos` list recorded by `step` before moves are applied. -/
def stepOld (gw : GridWorld) : List (Int × Int) :=
  gw.agents.map (·.pos)

/-- The roster right after the apply phase of `step`. -/
def stepApplied (gw : GridWorld) (actions : List Int) : List GridworldAgent :=
  applyMoves gw.agents (stepMoves gw actions).1

/-- The state at the exit of the conflict-resolution loop of `step`. -/
def stepLooped (gw : GridWorld) (actions : List Int) :
    List GridworldAgent × List EvalT :=
  conflictLoop gw (stepOld gw) (gw.agents.length + 1)
    (stepApplied gw actions, evalInit gw (stepApplied gw actions))

/-- The roster after the closing (charging / done-flag) phase of `step`. -/
def stepFinal (gw : GridWorld) (actions : List Int) : List GridworldAgent :=
  finalPhase gw (stepLooped gw actions).1 (stepLooped gw actions).2

/-- One whole `GridWorld.step` transition (after the length assertion):
returns the new environment, the reward vector and the done vector. -/
def stepCore (gw : GridWorld) (actions : List Int) :
    GridWorld × List ℚ × List Bool :=
  ({ gw with agents := stepFinal gw actions, rngCursor := (stepMoves gw actions).2,
             step_count := gw.step_count + 1 },
   (stepLooped gw actions).2.map (·.1),
   (stepFinal gw actions).map (·.done))

/-- `GridWorld.step` with the `assert len(actions) == len(self.agents)`
precondition: the assertion failure is modelled as `none`. -/
def step (gw : GridWorld) (actions : List Int) :
    Option (GridWorld × List ℚ × List Bool) :=
  if actions.length = gw.agents.length then some (stepCore gw actions) else none

/-- Concrete two-agent environment on an empty 5×5 grid, no wind, no noise:
agent 0 at `(0,0)` with goal `(4,4)`, agent 1 at `(0,1)` with goal `(3,3)`. -/
def gwBase : GridWorld :=
  { rows := 5, cols := 5, cell := fun _ _ => 0, colWind := fun _ => 0,
    noise := fun _ => 0, rngCursor := 0, rewards := rewardsDefault,
    step_count := 0, max_steps := 100,
    agents := [⟨(0, 0), (4, 4), 150, false⟩, ⟨(0, 1), (3, 3), 150, false⟩] }

/-- Two-agent environment in which agent 1 is already done. -/
def gwDone : GridWorld :=
  { gwBase with agents := [⟨(0, 0), (4, 4), 150, false⟩, ⟨(0, 1), (3, 3), 70, true⟩] }

/-- One-agent environment with zero wind bias everywhere (for the
random-draw accounting). -/
def gwOne : GridWorld :=
  { gwBase with agents := [⟨(2, 2), (4, 4), 150, false⟩] }

/-- One-agent environment with a charging station at `(0, 1)` and an agent
at `(0, 0)` whose battery is down to 10. -/
def gwGcs : GridWorld :=
  { gwBase with
      cell := fun n m => if n = 0 ∧ m = 1 then GCS else 0,
      agents := [⟨(0, 0), (4, 4), 10, false⟩] }

/-- Roster in which agent 0 stands on the cell of agent 1, and agent 1 is
already done. -/
def rosterC4 : List GridworldAgent :=
  [⟨(1, 1), (4, 4), 150, false⟩, ⟨(1, 1), (3, 3), 80, true⟩]

/-- The battery invariant of reachable states: every battery is a multiple of
10 in `[0, 150]`, and a non-done agent has at least one move's worth left. -/
def BatteryInv (agents : List GridworldAgent) : Prop :=
  ∀ i, i < agents.length →
    0 ≤ (agents.getD i default).battery ∧
    (agents.getD i default).battery ≤ BATTERY ∧
    (10 : Int) ∣ (agents.getD i default).battery ∧
    ((agents.getD i default).done = false → 10 ≤ (agents.getD i default).battery)

instance (agents : List GridworldAgent) : Decidable (BatteryInv agents) := by
  unfold BatteryInv; infer_instance

/-- Is agent `i` away from its recorded old position? -/
def movedB (agents : List GridworldAgent) (old : List (Int × Int)) (i : Nat) : Bool :=
  decide ((agents.getD i default).pos ≠ old.getD i ((0 : Int), (0 : Int)))

/-- Number of agents away from their old position. -/
def mc (agents : List GridworldAgent) (old : List (Int × Int)) : Nat :=
  (List.range agents.length).countP (movedB agents old)

/-- Shape of a re-evaluation output: every flagged index is a real agent away
from its old position. -/
def GoodE (agents : List GridworldAgent) (old : List (Int × Int))
    (evals : List EvalT) : Prop :=
  ∀ i, (evals.getD i eDflt).2.1 = true → i < agents.length ∧ movedB agents old i = true

/-- Invariant maintained by every pass of the conflict loop, relative to the
roster `applied` produced by the apply phase and the recorded old positions:
lengths are stable; done flags and batteries never change inside the loop;
a done agent is completely untouched and never flagged; the evaluation entry
of a non-done agent away from its old position is the fresh `_reward_agent`
value at the current roster; and the entry of a non-done agent whose battery
is exhausted carries the `battery_depleted` reward and a set done bit. -/
def LoopInv (gw : GridWorld) (applied : List GridworldAgent) (old : List (Int × Int))
    (st : List GridworldAgent × List EvalT) : Prop :=
  st.1.length = applied.length ∧
  st.2.length = applied.length ∧
  (∀ i, (st.1.getD i default).done = (applied.getD i default).done) ∧
  (∀ i, (st.1.getD i default).battery = (applied.getD i default).battery) ∧
  (∀ i, (st.1.getD i default).done = true →
    st.1.getD i default = applied.getD i default ∧ (st.2.getD i eDflt).2.1 = false) ∧
  (∀ i, i < applied.length → (st.1.getD i default).done = false →
    (st.1.getD i default).pos ≠ old.getD i ((0 : Int), (0 : Int)) →
    st.2.getD i eDflt = reward_agent gw st.1 i) ∧
  (∀ i, i < applied.length → (st.1.getD i default).done = false →
    (st.1.getD i default).battery ≤ 0 →
    (st.2.getD i eDflt).1 = gw.rewards.battery_depleted ∧
      (st.2.getD i eDflt).2.2 = true)

/-! ### Generic list-indexing helper lemmas -/

lemma getD_range_map {α : Type} (f : Nat → α) (n i : Nat) (d : α) :
    ((List.range n).map f).getD i d = if i < n then f i else d := by
  rw [List.getD_eq_getElem?_getD, List.getElem?_map]
  by_cases h : i < n
  · rw [List.getElem?_range h]; simp [h]
  · rw [List.getElem?_eq_none (by simpa using Nat.le_of_not_lt h)]; simp [h]

lemma getD_of_len_le {α : Type} (l : List α) (i : Nat) (d : α) (h : l.length ≤ i) :
    l.getD i d = d := by
  rw [List.getD_eq_getElem?_getD, List.getElem?_eq_none h]; rfl

lemma getD_map_pos (l : List GridworldAgent) (i : Nat) (hi : i < l.length) :
    (l.map (·.pos)).getD i ((0 : Int), (0 : Int)) = (l.getD i default).pos := by
  rw [List.getD_eq_getElem?_getD, List.getElem?_map, List.getElem?_eq_getElem hi,
      List.getD_eq_getElem?_getD, List.getElem?_eq_getElem hi]
  rfl

lemma countP_lt_of_imp {α : Type} (l : List α) (p q : α → Bool)
    (h : ∀ a ∈ l, p a = true → q a = true) {x : α} (hx : x ∈ l)
    (hq : q x = true) (hp : p x = false) :
    l.countP p < l.countP q := by
  induction l with
  | nil => cases hx
  | cons a t ih =>
    rw [List.countP_cons, List.countP_cons]
    rcases List.mem_cons.mp hx with rfl | hx'
    · rw [hp, hq]
      simpa using Nat.lt_succ_of_le
        (List.countP_mono_left fun b hb => h b (List.mem_cons_of_mem _ hb))
    · have hlt := ih (fun b hb => h b (List.mem_cons_of_mem _ hb)) hx'
      have hle : (if p a = true then 1 else 0) ≤ (if q a = true then 1 else 0) := by
        by_cases hpa : p a = true
        · rw [if_pos hpa, if_pos (h a (List.mem_cons_self a t) hpa)]
        · rw [if_neg hpa]; omega
      omega

lemma countP_lt_length {α : Type} (l : List α) (p : α → Bool) {x : α}
    (hx : x ∈ l) (hp : p x = false) :
    l.countP p < l.length := by
  have := countP_lt_of_imp l p (fun _ => true) (fun a _ _ => rfl) hx rfl hp
  simpa [List.countP_true] using this

/-! ### Index and length lemmas for the embedded operations -/

lemma applyMoves_length (ags : List GridworldAgent) (mvs : List (Int × Int)) :
    (applyMoves ags mvs).length = ags.length := by
  induction ags generalizing mvs with
  | nil => rfl
  | cons a rest ih =>
    cases mvs with
    | nil => rfl
    | cons mv mrest => simp [applyMoves, ih]

lemma applyMoves_getD (ags : List GridworldAgent) (mvs : List (Int × Int)) (i : Nat)
    (hlen : mvs.length = ags.length) (hi : i < ags.length) :
    (applyMoves ags mvs).getD i default =
      (if (ags.getD i default).done then ags.getD i default
       else { ags.getD i default with
                pos := mvs.getD i ((0 : Int), (0 : Int)),
                battery := (ags.getD i default).battery - 10 }) := by
  induction ags generalizing mvs i with
  | nil => simp at hi
  | cons a rest ih =>
    cases mvs with
    | nil => simp at hlen
    | cons mv mrest =>
      cases i with
      | zero => simp [applyMoves]
      | succ j =>
        have hlen' : mrest.length = rest.length := by simpa using hlen
        have hj : j < rest.length := by simpa using hi
        simpa [applyMoves] using ih mrest j hlen' hj

lemma computeMoves_length (gw : GridWorld) (l : List (GridworldAgent × Int)) (k : Nat) :
    (computeMoves gw l k).1.length = l.length := by
  induction l generalizing k with
  | nil => rfl
  | cons p rest ih =>
    obtain ⟨a, act⟩ := p
    by_cases h : a.done <;> simp [computeMoves, h, ih]

lemma computeMoves_cursor (gw : GridWorld) (l : List (GridworldAgent × Int)) (k : Nat) :
    (computeMoves gw l k).2 = k + l.countP (fun p => !p.1.done) := by
  induction l generalizing k with
  | nil => simp [computeMoves]
  | cons p rest ih =>
    obtain ⟨a, act⟩ := p
    by_cases h : a.done
    · simp [computeMoves, h, ih, List.countP_cons]
    · simp [computeMoves, h, ih, List.countP_cons]
      omega

lemma countP_zip_fst (ags : List GridworldAgent) (acts : List Int)
    (h : acts.length = ags.length) :
    (ags.zip acts).countP (fun p => !p.1.done) = ags.countP (fun a => !a.done) := by
  induction ags generalizing acts with
  | nil => simp
  | cons a rest ih =>
    cases acts with
    | nil => simp at h
    | cons x xs =>
      simp [List.zip_cons_cons, List.countP_cons, ih xs (by simpa using h)]

lemma evalInit_length (gw : GridWorld) (ags : List GridworldAgent) :
    (evalInit gw ags).length = ags.length := by
  unfold evalInit; simp

lemma evalInit_getD (gw : GridWorld) (ags : List GridworldAgent) (i : Nat)
    (hi : i < ags.length) :
    (evalInit gw ags).getD i eDflt =
      (if (ags.getD i default).done then ((0 : ℚ), false, (ags.getD i default).done)
       else reward_agent gw ags i) := by
  unfold evalInit; rw [getD_range_map, if_pos hi]

lemma revertIllegal_length (agents : List GridworldAgent) (old : List (Int × Int))
    (evals : List EvalT) :
    (revertIllegal agents old evals).length = agents.length := by
  unfold revertIllegal; simp

lemma revertIllegal_getD (agents : List GridworldAgent) (old : List (Int × Int))
    (evals : List EvalT) (i : Nat) (hi : i < agents.length) :
    (revertIllegal agents old evals).getD i default =
      (if (evals.getD i eDflt).2.1 then
        { agents.getD i default with pos := old.getD i ((0 : Int), (0 : Int)) }
       else agents.getD i default) := by
  unfold revertIllegal; rw [getD_range_map, if_pos hi]

lemma reevalPass_length (gw : GridWorld) (agents : List GridworldAgent)
    (old : List (Int × Int)) (prev : List EvalT) :
    (reevalPass gw agents old prev).length = agents.length := by
  unfold reevalPass; simp

lemma reevalPass_getD (gw : GridWorld) (agents : List GridworldAgent)
    (old : List (Int × Int)) (prev : List EvalT) (i : Nat) (hi : i < agents.length) :
    (reevalPass gw agents old prev).getD i eDflt =
      (if (agents.getD i default).done = true ∨
          (agents.getD i default).pos = old.getD i ((0 : Int), (0 : Int)) then
        ((prev.getD i eDflt).1, false, (prev.getD i eDflt).2.2)
       else reward_agent gw agents i) := by
  unfold reevalPass; rw [getD_range_map, if_pos hi]

lemma finalPhase_length (gw : GridWorld) (agents : List GridworldAgent)
    (evals : List EvalT) :
    (finalPhase gw agents evals).length = agents.length := by
  unfold finalPhase; simp

lemma finalPhase_getD (gw : GridWorld) (agents : List GridworldAgent)
    (evals : List EvalT) (i : Nat) (hi : i < agents.length) :
    (finalPhase gw agents evals).getD i default =
      (if (agents.getD i default).done then agents.getD i default
       else
        { (if gw.cell (agents.getD i default).pos.1 (agents.getD i default).pos.2 = GCS then
             { agents.getD i default with battery := BATTERY }
           else agents.getD i default) with done := (evals.getD i eDflt).2.2 }) := by
  unfold finalPhase; rw [getD_range_map, if_pos hi]

/-! ### Basic facts about the conflict loop -/

lemma conflictLoop_zero (gw : GridWorld) (old : List (Int × Int))
    (st : List GridworldAgent × List EvalT) :
    conflictLoop gw old 0 st = st := rfl

lemma conflictLoop_succ (gw : GridWorld) (old : List (Int × Int)) (f : Nat)
    (st : List GridworldAgent × List EvalT) :
    conflictLoop gw old (f + 1) st =
      if anyIll st.2 then
        conflictLoop gw old f
          (revertIllegal st.1 old st.2,
           reevalPass gw (revertIllegal st.1 old st.2) old st.2)
      else st := rfl

lemma conflictLoop_of_noIll (gw : GridWorld) (old : List (Int × Int)) (f : Nat)
    (st : List GridworldAgent × List EvalT) (h : anyIll st.2 = false) :
    conflictLoop gw old f st = st := by
  cases f with
  | zero => rfl
  | succ g => rw [conflictLoop_succ, if_neg (by simp [h])]

lemma conflictLoop_stable (gw : GridWorld) (old : List (Int × Int)) :
    ∀ (f : Nat) (st : List GridworldAgent × List EvalT),
      anyIll (conflictLoop gw old f st).2 = false →
      ∀ g, f ≤ g → conflictLoop gw old g st = conflictLoop gw old f st := by
  intro f
  induction f with
  | zero =>
    intro st h g _
    rw [conflictLoop_zero] at h ⊢
    exact conflictLoop_of_noIll _ _ _ _ h
  | succ f ih =>
    intro st h g hg
    by_cases hA : anyIll st.2 = true
    · rw [conflictLoop_succ, if_pos hA] at h ⊢
      cases g with
      | zero => omega
      | succ g' =>
        rw [conflictLoop_succ, if_pos hA]
        exact ih _ h g' (Nat.le_of_succ_le_succ hg)
    · have hA' : anyIll st.2 = false := by revert hA; cases anyIll st.2 <;> simp
      rw [conflictLoop_of_noIll _ _ _ _ hA', conflictLoop_of_noIll _ _ _ _ hA']

lemma conflictLoop_inv (gw : GridWorld) (old : List (Int × Int))
    (P : List GridworldAgent × List EvalT → Prop)
    (hbody : ∀ st, P st →
      P (revertIllegal st.1 old st.2,
         reevalPass gw (revertIllegal st.1 old st.2) old st.2)) :
    ∀ (f : Nat) st, P st → P (conflictLoop gw old f st) := by
  intro f
  induction f with
  | zero => intro st h; exact h
  | succ f ih =>
    intro st h
    rw [conflictLoop_succ]
    by_cases hA : anyIll st.2 = true
    · rw [if_pos hA]; exact ih _ (hbody st h)
    · rw [if_neg hA]; exact h

lemma ill_of_anyIll_false (evals : List EvalT) (h : anyIll evals = false) (i : Nat) :
    (evals.getD i eDflt).2.1 = false := by
  by_cases hi : i < evals.length
  · have hg : evals.getD i eDflt = evals.get ⟨i, hi⟩ := by
      rw [List.getD_eq_getElem?_getD, List.getElem?_eq_getElem hi]; rfl
    rw [hg]
    have hmem := List.any_eq_false.mp h (evals.get ⟨i, hi⟩) (evals.get_mem _ _)
    revert hmem; cases (evals.get ⟨i, hi⟩).2.1 <;> simp
  · rw [getD_of_len_le _ _ _ (Nat.le_of_not_lt hi)]; rfl

lemma exists_ill_of_anyIll (evals : List EvalT) (h : anyIll evals = true) :
    ∃ i, i < evals.length ∧ (evals.getD i eDflt).2.1 = true := by
  obtain ⟨e, he, hp⟩ := List.any_eq_true.mp h
  obtain ⟨i, hi⟩ := List.mem_iff_get.mp he
  refine ⟨i, i.isLt, ?_⟩
  rw [List.getD_eq_getElem?_getD, List.getElem?_eq_getElem i.isLt]
  simpa [← hi] using hp

/-! ### Facts about `_reward_agent` -/

lemma reward_agent_ill_eq (gw : GridWorld) (agents : List GridworldAgent) (i : Nat) :
    (reward_agent gw agents i).2.1 = (rewardBase gw agents i).2.1 := by
  unfold reward_agent
  split_ifs <;> rfl

lemma collideB_iff (agents : List GridworldAgent) (i : Nat) (p : Int × Int) :
    collideB agents i p = true ↔
      ∃ j, j < agents.length ∧ j ≠ i ∧ (agents.getD j default).pos = p := by
  unfold collideB
  rw [List.any_eq_true]
  constructor
  · rintro ⟨j, hj, hp⟩
    rw [Bool.and_eq_true] at hp
    exact ⟨j, List.mem_range.mp hj, of_decide_eq_true hp.1, of_decide_eq_true hp.2⟩
  · rintro ⟨j, hj, hne, hp⟩
    refine ⟨j, List.mem_range.mpr hj, ?_⟩
    rw [Bool.and_eq_true]
    exact ⟨decide_eq_true hne, decide_eq_true hp⟩

lemma rewardBase_ill_iff (gw : GridWorld) (agents : List GridworldAgent) (i : Nat) :
    (rewardBase gw agents i).2.1 = true ↔
      ¬ inBoundsPos gw (agents.getD i default).pos ∨
      gw.cell (agents.getD i default).pos.1 (agents.getD i default).pos.2 = OBSTACLE ∨
      collideB agents i (agents.getD i default).pos = true := by
  unfold rewardBase
  split_ifs with h1 h2 h3 <;> simp_all

lemma reward_agent_legal_no_collision (gw : GridWorld) (agents : List GridworldAgent)
    (i : Nat) (h : (reward_agent gw agents i).2.1 = false) :
    ∀ j, j < agents.length → j ≠ i →
      (agents.getD j default).pos ≠ (agents.getD i default).pos := by
  intro j hj hne hpos
  have hbase : (rewardBase gw agents i).2.1 = false := by
    rw [← reward_agent_ill_eq]; exact h
  have : (rewardBase gw agents i).2.1 = true := by
    rw [rewardBase_ill_iff]
    exact Or.inr (Or.inr ((collideB_iff _ _ _).mpr ⟨j, hj, hne, hpos⟩))
  rw [hbase] at this
  cases this

lemma reward_agent_battery (gw : GridWorld) (agents : List GridworldAgent) (i : Nat)
    (h : (agents.getD i default).battery ≤ 0) :
    (reward_agent gw agents i).1 = gw.rewards.battery_depleted ∧
    (reward_agent gw agents i).2.2 = true := by
  unfold reward_agent
  rw [if_pos h]
  exact ⟨rfl, rfl⟩

/-! ### Termination of the conflict loop -/

lemma reevalPass_goodE (gw : GridWorld) (agents : List GridworldAgent)
    (old : List (Int × Int)) (prev : List EvalT) :
    GoodE agents old (reevalPass gw agents old prev) := by
  intro i hill
  by_cases hi : i < agents.length
  · refine ⟨hi, ?_⟩
    rw [reevalPass_getD _ _ _ _ _ hi] at hill
    by_cases hs : (agents.getD i default).done = true ∨
        (agents.getD i default).pos = old.getD i ((0 : Int), (0 : Int))
    · rw [if_pos hs] at hill; simp at hill
    · push_neg at hs
      unfold movedB
      exact decide_eq_true hs.2
  · rw [getD_of_len_le] at hill
    · simp [eDflt] at hill
    · rw [reevalPass_length]; omega

lemma movedB_revert (agents : List GridworldAgent) (old : List (Int × Int))
    (evals : List EvalT) (i : Nat) (hi : i < agents.length) :
    movedB (revertIllegal agents old evals) old i =
      (!(evals.getD i eDflt).2.1 && movedB agents old i) := by
  unfold movedB
  rw [revertIllegal_getD _ _ _ _ hi]
  by_cases hill : (evals.getD i eDflt).2.1 = true
  · rw [if_pos hill, hill]
    simp
  · have hf : (evals.getD i eDflt).2.1 = false := by
      revert hill; cases (evals.getD i eDflt).2.1 <;> simp
    rw [if_neg hill, hf]
    simp

lemma mc_le_length (agents : List GridworldAgent) (old : List (Int × Int)) :
    mc agents old ≤ agents.length := by
  unfold mc
  have h : List.countP (movedB agents old) (List.range agents.length) ≤
      (List.range agents.length).length := List.countP_le_length _
  simpa using h

lemma mc_revert_le (agents : List GridworldAgent) (old : List (Int × Int))
    (evals : List EvalT) :
    mc (revertIllegal agents old evals) old ≤ mc agents old := by
  unfold mc
  rw [revertIllegal_length]
  apply List.countP_mono_left
  intro j hj hmoved
  rw [movedB_revert _ _ _ _ (List.mem_range.mp hj), Bool.and_eq_true] at hmoved
  exact hmoved.2

lemma mc_revert_lt (agents : List GridworldAgent) (old : List (Int × Int))
    (evals : List EvalT) (i : Nat) (hi : i < agents.length)
    (hill : (evals.getD i eDflt).2.1 = true) (hmov : movedB agents old i = true) :
    mc (revertIllegal agents old evals) old < mc agents old := by
  unfold mc
  rw [revertIllegal_length]
  refine countP_lt_of_imp _ _ _ ?_ (List.mem_range.mpr hi) hmov ?_
  · intro j hj hmoved
    rw [movedB_revert _ _ _ _ (List.mem_range.mp hj), Bool.and_eq_true] at hmoved
    exact hmoved.2
  · rw [movedB_revert _ _ _ _ hi, hill]
    simp

lemma mc_lt_of_stayed (agents : List GridworldAgent) (old : List (Int × Int))
    (i : Nat) (hi : i < agents.length) (h : movedB agents old i = false) :
    mc agents old < agents.length := by
  have hlt := countP_lt_length (List.range agents.length) (movedB agents old)
    (List.mem_range.mpr hi) h
  unfold mc
  simpa using hlt

lemma loop_exits_of_good (gw : GridWorld) (old : List (Int × Int)) :
    ∀ (fuel : Nat) (agents : List GridworldAgent) (evals : List EvalT),
      GoodE agents old evals → mc agents old < fuel →
      anyIll (conflictLoop gw old fuel (agents, evals)).2 = false := by
  intro fuel
  induction fuel with
  | zero => intro agents evals _ h; omega
  | succ f ih =>
    intro agents evals hg hf
    by_cases hA : anyIll evals = true
    · rw [conflictLoop_succ]
      simp only [if_pos hA]
      obtain ⟨i, _, hill⟩ := exists_ill_of_anyIll _ hA
      obtain ⟨hilt, hmov⟩ := hg i hill
      apply ih _ _ (reevalPass_goodE _ _ _ _)
      have hlt := mc_revert_lt agents old evals i hilt hill hmov
      omega
    · have hA' : anyIll evals = false := by revert hA; cases anyIll evals <;> simp
      rw [conflictLoop_of_noIll _ _ _ _ hA']
      exact hA'

lemma loop_exits (gw : GridWorld) (old : List (Int × Int))
    (agents : List GridworldAgent) (evals : List EvalT)
    (hlen : evals.length = agents.length) :
    anyIll (conflictLoop gw old (agents.length + 1) (agents, evals)).2 = false := by
  by_cases hA : anyIll evals = true
  · rw [conflictLoop_succ]
    simp only [if_pos hA]
    obtain ⟨i, hi, hill⟩ := exists_ill_of_anyIll _ hA
    have hin : i < agents.length := hlen ▸ hi
    apply loop_exits_of_good gw old agents.length _ _ (reevalPass_goodE _ _ _ _)
    by_cases hmov : movedB agents old i = true
    · have h1 := mc_revert_lt agents old evals i hin hill hmov
      have h2 := mc_le_length agents old
      omega
    · have hmov' : movedB agents old i = false := by
        revert hmov; cases movedB agents old i <;> simp
      have h1 := mc_lt_of_stayed agents old i hin hmov'
      have h2 := mc_revert_le agents old evals
      omega
  · have hA' : anyIll evals = false := by revert hA; cases anyIll evals <;> simp
    rw [conflictLoop_of_noIll _ _ _ _ hA']
    exact hA'

/-! ### Invariants of the conflict loop -/

lemma revertIllegal_done (agents : List GridworldAgent) (old : List (Int × Int))
    (evals : List EvalT) (i : Nat) :
    ((revertIllegal agents old evals).getD i default).done =
      (agents.getD i default).done := by
  by_cases hi : i < agents.length
  · rw [revertIllegal_getD _ _ _ _ hi]
    split_ifs <;> rfl
  · rw [getD_of_len_le _ _ _ (by rw [revertIllegal_length]; exact Nat.le_of_not_lt hi),
        getD_of_len_le _ _ _ (Nat.le_of_not_lt hi)]

lemma revertIllegal_battery (agents : List GridworldAgent) (old : List (Int × Int))
    (evals : List EvalT) (i : Nat) :
    ((revertIllegal agents old evals).getD i default).battery =
      (agents.getD i default).battery := by
  by_cases hi : i < agents.length
  · rw [revertIllegal_getD _ _ _ _ hi]
    split_ifs <;> rfl
  · rw [getD_of_len_le _ _ _ (by rw [revertIllegal_length]; exact Nat.le_of_not_lt hi),
        getD_of_len_le _ _ _ (Nat.le_of_not_lt hi)]

lemma revertIllegal_noflag (agents : List GridworldAgent) (old : List (Int × Int))
    (evals : List EvalT) (i : Nat) (h : (evals.getD i eDflt).2.1 = false) :
    (revertIllegal agents old evals).getD i default = agents.getD i default := by
  by_cases hi : i < agents.length
  · rw [revertIllegal_getD _ _ _ _ hi, h]
    simp
  · rw [getD_of_len_le _ _ _ (by rw [revertIllegal_length]; exact Nat.le_of_not_lt hi),
        getD_of_len_le _ _ _ (Nat.le_of_not_lt hi)]

lemma loopInv_init (gw : GridWorld) (applied : List GridworldAgent)
    (old : List (Int × Int)) :
    LoopInv gw applied old (applied, evalInit gw applied) := by
  refine ⟨rfl, evalInit_length gw applied, fun i => rfl, fun i => rfl, ?_, ?_, ?_⟩
  · intro i hdi
    refine ⟨rfl, ?_⟩
    by_cases hi : i < applied.length
    · rw [evalInit_getD _ _ _ hi, if_pos hdi]
    · rw [getD_of_len_le _ _ _ (by rw [evalInit_length]; exact Nat.le_of_not_lt hi)]
      rfl
  · intro i hi hdi _
    rw [evalInit_getD _ _ _ hi, if_neg (by rw [hdi]; simp)]
  · intro i hi hdi hbat
    rw [evalInit_getD _ _ _ hi, if_neg (by rw [hdi]; simp)]
    exact reward_agent_battery gw applied i hbat

lemma loopInv_body (gw : GridWorld) (applied : List GridworldAgent)
    (old : List (Int × Int)) (st : List GridworldAgent × List EvalT)
    (h : LoopInv gw applied old st) :
    LoopInv gw applied old
      (revertIllegal st.1 old st.2,
       reevalPass gw (revertIllegal st.1 old st.2) old st.2) := by
  obtain ⟨hl1, hl2, hdone, hbat, hfix, hfresh, hK⟩ := h
  have hlenA : (revertIllegal st.1 old st.2).length = applied.length := by
    rw [revertIllegal_length]; exact hl1
  refine ⟨hlenA, by rw [reevalPass_length]; exact hlenA, ?_, ?_, ?_, ?_, ?_⟩
  · intro i
    rw [revertIllegal_done]
    exact hdone i
  · intro i
    rw [revertIllegal_battery]
    exact hbat i
  · intro i hdi
    have hdi' : (st.1.getD i default).done = true := by
      rw [← revertIllegal_done st.1 old st.2 i]; exact hdi
    obtain ⟨hfixi, hflagi⟩ := hfix i hdi'
    refine ⟨?_, ?_⟩
    · rw [revertIllegal_noflag _ _ _ _ hflagi]
      exact hfixi
    · by_cases hi : i < (revertIllegal st.1 old st.2).length
      · rw [reevalPass_getD _ _ _ _ _ hi, if_pos (Or.inl hdi)]
      · rw [getD_of_len_le _ _ _ (by rw [reevalPass_length]; exact Nat.le_of_not_lt hi)]
        rfl
  · intro i hi hdi hpos
    have hi' : i < (revertIllegal st.1 old st.2).length := by rw [hlenA]; exact hi
    rw [reevalPass_getD _ _ _ _ _ hi',
        if_neg (by rw [hdi]; simpa using hpos)]
  · intro i hi hdi hbati
    have hi' : i < (revertIllegal st.1 old st.2).length := by rw [hlenA]; exact hi
    by_cases hp : ((revertIllegal st.1 old st.2).getD i default).pos =
        old.getD i ((0 : Int), (0 : Int))
    · rw [reevalPass_getD _ _ _ _ _ hi', if_pos (Or.inr hp)]
      have hdi0 : (st.1.getD i default).done = false := by
        rw [← revertIllegal_done st.1 old st.2 i]; exact hdi
      have hbat0 : (st.1.getD i default).battery ≤ 0 := by
        rw [← revertIllegal_battery st.1 old st.2 i]; exact hbati
      exact hK i hi hdi0 hbat0
    · rw [reevalPass_getD _ _ _ _ _ hi', if_neg (by rw [hdi]; simpa using hp)]
      exact reward_agent_battery gw _ i hbati

/-! ### Step-level facts -/

lemma getD_map_of_lt {α β : Type} (f : α → β) (l : List α) (i : Nat)
    (hi : i < l.length) (d : β) (d' : α) :
    (l.map f).getD i d = f (l.getD i d') := by
  rw [List.getD_eq_getElem?_getD, List.getElem?_map, List.getElem?_eq_getElem hi,
      List.getD_eq_getElem?_getD, List.getElem?_eq_getElem hi]
  rfl

lemma stepMoves_length (gw : GridWorld) (acts : List Int)
    (hlen : acts.length = gw.agents.length) :
    (stepMoves gw acts).1.length = gw.agents.length := by
  unfold stepMoves
  rw [computeMoves_length, List.length_zip, hlen, Nat.min_self]

lemma stepApplied_length (gw : GridWorld) (acts : List Int) :
    (stepApplied gw acts).length = gw.agents.length := by
  unfold stepApplied
  exact applyMoves_length _ _

lemma stepOld_getD (gw : GridWorld) (i : Nat) (hi : i < gw.agents.length) :
    (stepOld gw).getD i ((0 : Int), (0 : Int)) = (gw.agents.getD i default).pos := by
  unfold stepOld
  exact getD_map_pos _ _ hi

lemma stepApplied_getD (gw : GridWorld) (acts : List Int) (i : Nat)
    (hlen : acts.length = gw.agents.length) (hi : i < gw.agents.length) :
    (stepApplied gw acts).getD i default =
      (if (gw.agents.getD i default).done then gw.agents.getD i default
       else { gw.agents.getD i default with
                pos := (stepMoves gw acts).1.getD i ((0 : Int), (0 : Int)),
                battery := (gw.agents.getD i default).battery - 10 }) := by
  unfold stepApplied
  exact applyMoves_getD _ _ _ (stepMoves_length gw acts hlen) hi

lemma stepApplied_done (gw : GridWorld) (acts : List Int) (i : Nat)
    (hlen : acts.length = gw.agents.length) (hi : i < gw.agents.length) :
    ((stepApplied gw acts).getD i default).done = (gw.agents.getD i default).done := by
  rw [stepApplied_getD gw acts i hlen hi]
  split_ifs <;> rfl

lemma stepApplied_battery (gw : GridWorld) (acts : List Int) (i : Nat)
    (hlen : acts.length = gw.agents.length) (hi : i < gw.agents.length)
    (hnd : (gw.agents.getD i default).done = false) :
    ((stepApplied gw acts).getD i default).battery =
      (gw.agents.getD i default).battery - 10 := by
  rw [stepApplied_getD gw acts i hlen hi, if_neg (by rw [hnd]; simp)]

lemma stepLooped_inv (gw : GridWorld) (acts : List Int) :
    LoopInv gw (stepApplied gw acts) (stepOld gw) (stepLooped gw acts) := by
  unfold stepLooped
  exact conflictLoop_inv gw (stepOld gw) _ (fun st h => loopInv_body gw _ _ st h) _ _
    (loopInv_init gw _ _)

lemma stepLooped_noIll (gw : GridWorld) (acts : List Int) :
    anyIll (stepLooped gw acts).2 = false := by
  unfold stepLooped
  have h := loop_exits gw (stepOld gw) (stepApplied gw acts)
    (evalInit gw (stepApplied gw acts)) (evalInit_length _ _)
  rw [stepApplied_length] at h
  exact h

lemma stepLooped_agents_length (gw : GridWorld) (acts : List Int) :
    (stepLooped gw acts).1.length = gw.agents.length := by
  rw [(stepLooped_inv gw acts).1, stepApplied_length]

lemma stepLooped_evals_length (gw : GridWorld) (acts : List Int) :
    (stepLooped gw acts).2.length = gw.agents.length := by
  rw [(stepLooped_inv gw acts).2.1, stepApplied_length]

lemma stepLooped_done (gw : GridWorld) (acts : List Int) (i : Nat)
    (hlen : acts.length = gw.agents.length) (hi : i < gw.agents.length) :
    ((stepLooped gw acts).1.getD i default).done = (gw.agents.getD i default).done := by
  rw [(stepLooped_inv gw acts).2.2.1 i, stepApplied_done gw acts i hlen hi]

lemma stepLooped_battery (gw : GridWorld) (acts : List Int) (i : Nat)
    (hlen : acts.length = gw.agents.length) (hi : i < gw.agents.length)
    (hnd : (gw.agents.getD i default).done = false) :
    ((stepLooped gw acts).1.getD i default).battery =
      (gw.agents.getD i default).battery - 10 := by
  rw [(stepLooped_inv gw acts).2.2.2.1 i, stepApplied_battery gw acts i hlen hi hnd]

lemma stepFinal_length (gw : GridWorld) (acts : List Int) :
    (stepFinal gw acts).length = gw.agents.length := by
  unfold stepFinal
  rw [finalPhase_length]
  exact stepLooped_agents_length gw acts

lemma stepFinal_getD (gw : GridWorld) (acts : List Int) (i : Nat)
    (hi : i < gw.agents.length) :
    (stepFinal gw acts).getD i default =
      (if ((stepLooped gw acts).1.getD i default).done then
        (stepLooped gw acts).1.getD i default
       else
        { (if gw.cell ((stepLooped gw acts).1.getD i default).pos.1
              ((stepLooped gw acts).1.getD i default).pos.2 = GCS then
             { (stepLooped gw acts).1.getD i default with battery := BATTERY }
           else (stepLooped gw acts).1.getD i default) with
            done := ((stepLooped gw acts).2.getD i eDflt).2.2 }) := by
  unfold stepFinal
  exact finalPhase_getD gw _ _ i (by rw [stepLooped_agents_length]; exact hi)

lemma stepFinal_pos (gw : GridWorld) (acts : List Int) (i : Nat)
    (hi : i < gw.agents.length) :
    ((stepFinal gw acts).getD i default).pos =
      ((stepLooped gw acts).1.getD i default).pos := by
  rw [stepFinal_getD gw acts i hi]
  split_ifs <;> rfl

lemma stepFinal_done_eq (gw : GridWorld) (acts : List Int) (i : Nat)
    (hlen : acts.length = gw.agents.length) (hi : i < gw.agents.length)
    (hnd : (gw.agents.getD i default).done = false) :
    ((stepFinal gw acts).getD i default).done =
      ((stepLooped gw acts).2.getD i eDflt).2.2 := by
  rw [stepFinal_getD gw acts i hi,
      if_neg (by rw [stepLooped_done gw acts i hlen hi, hnd]; simp)]

lemma stepFinal_battery_eq (gw : GridWorld) (acts : List Int) (i : Nat)
    (hlen : acts.length = gw.agents.length) (hi : i < gw.agents.length)
    (hnd : (gw.agents.getD i default).done = false) :
    ((stepFinal gw acts).getD i default).battery =
      (if gw.cell ((stepLooped gw acts).1.getD i default).pos.1
           ((stepLooped gw acts).1.getD i default).pos.2 = GCS then BATTERY
       else ((stepLooped gw acts).1.getD i default).battery) := by
  rw [stepFinal_getD gw acts i hi,
      if_neg (by rw [stepLooped_done gw acts i hlen hi, hnd]; simp)]
  split_ifs <;> rfl

lemma stepFinal_of_done (gw : GridWorld) (acts : List Int) (i : Nat)
    (hlen : acts.length = gw.agents.length) (hi : i < gw.agents.length)
    (hd : (gw.agents.getD i default).done = true) :
    (stepFinal gw acts).getD i default = gw.agents.getD i default := by
  have happ : (stepApplied gw acts).getD i default = gw.agents.getD i default := by
    rw [stepApplied_getD gw acts i hlen hi, if_pos hd]
  have hld : ((stepLooped gw acts).1.getD i default).done = true := by
    rw [stepLooped_done gw acts i hlen hi]; exact hd
  rw [stepFinal_getD gw acts i hi, if_pos hld,
      ((stepLooped_inv gw acts).2.2.2.2.1 i hld).1, happ]

lemma stepCore_rewards_getD (gw : GridWorld) (acts : List Int) (i : Nat)
    (hi : i < gw.agents.length) :
    (stepCore gw acts).2.1.getD i 0 = ((stepLooped gw acts).2.getD i eDflt).1 := by
  show ((stepLooped gw acts).2.map (·.1)).getD i 0 = _
  exact getD_map_of_lt _ _ _ (by rw [stepLooped_evals_length]; exact hi) _ _

lemma stepCore_dones_getD (gw : GridWorld) (acts : List Int) (i : Nat)
    (hi : i < gw.agents.length) :
    (stepCore gw acts).2.2.getD i false = ((stepFinal gw acts).getD i default).done := by
  show ((stepFinal gw acts).map (·.done)).getD i false = _
  exact getD_map_of_lt _ _ _ (by rw [stepFinal_length]; exact hi) _ _

/-! ### Claim theorems -/

/-- C6: for every position and every action value outside the four legal
actions `{0, 1, 2, 3}` (every such integer is `k + 4` or `-1 - k` for some
natural `k`), `trans_function` returns the position unchanged and raises
nothing: the `UnknownAction` error required by the specification is never
produced.  This records the divergence of the code from the claim. -/
theorem c6_unknown_action_silently_ignored :
    (∀ (gw : GridWorld) (s : Int × Int) (w : Int) (k : Nat),
      trans_function gw s ((k : Int) + 4) w = s ∧
      trans_function gw s (-1 - (k : Int)) w = s) ∧
    trans_function gwBase (2, 2) 7 3 = (2, 2) := by
  refine ⟨?_, by decide⟩
  intro gw s w k
  constructor
  · simp only [trans_function]
    rw [if_neg (by omega), if_neg (by omega), if_neg (by omega), if_neg (by omega)]
  · simp only [trans_function]
    rw [if_neg (by omega), if_neg (by omega), if_neg (by omega), if_neg (by omega)]

lemma evalInit_sc (gw : GridWorld) (c k : Nat) (ags : List GridworldAgent) :
    evalInit { gw with step_count := c, max_steps := k } ags = evalInit gw ags := rfl

lemma conflictLoop_sc (gw : GridWorld) (c k : Nat) (old : List (Int × Int)) :
    ∀ (f : Nat) (st : List GridworldAgent × List EvalT),
      conflictLoop { gw with step_count := c, max_steps := k } old f st =
        conflictLoop gw old f st := by
  intro f
  induction f with
  | zero => intro st; rfl
  | succ f ih =>
    intro st
    rw [conflictLoop_succ, conflictLoop_succ]
    by_cases hA : anyIll st.2 = true
    · rw [if_pos hA, if_pos hA]
      have hre : reevalPass { gw with step_count := c, max_steps := k }
          (revertIllegal st.1 old st.2) old st.2 =
            reevalPass gw (revertIllegal st.1 old st.2) old st.2 := rfl
      rw [hre, ih]
    · rw [if_neg hA, if_neg hA]

lemma computeMoves_sc (gw : GridWorld) (c k : Nat) :
    ∀ (l : List (GridworldAgent × Int)) (m : Nat),
      computeMoves { gw with step_count := c, max_steps := k } l m =
        computeMoves gw l m := by
  intro l
  induction l with
  | nil => intro m; rfl
  | cons p rest ih =>
    intro m
    obtain ⟨a, act⟩ := p
    by_cases h : a.done = true
    · simp only [computeMoves, if_pos h, ih]
    · simp only [computeMoves, if_neg h, ih]
      rfl

lemma stepMoves_sc (gw : GridWorld) (c k : Nat) (acts : List Int) :
    stepMoves { gw with step_count := c, max_steps := k } acts = stepMoves gw acts := by
  unfold stepMoves
  exact computeMoves_sc gw c k _ _

lemma stepApplied_sc (gw : GridWorld) (c k : Nat) (acts : List Int) :
    stepApplied { gw with step_count := c, max_steps := k } acts =
      stepApplied gw acts := by
  show applyMoves gw.agents
    (stepMoves { gw with step_count := c, max_steps := k } acts).1 =
      applyMoves gw.agents (stepMoves gw acts).1
  rw [stepMoves_sc]

lemma stepLooped_sc (gw : GridWorld) (c k : Nat) (acts : List Int) :
    stepLooped { gw with step_count := c, max_steps := k } acts =
      stepLooped gw acts := by
  show conflictLoop { gw with step_count := c, max_steps := k } (stepOld gw)
      (gw.agents.length + 1)
      (stepApplied { gw with step_count := c, max_steps := k } acts,
       evalInit { gw with step_count := c, max_steps := k }
         (stepApplied { gw with step_count := c, max_steps := k } acts)) =
    conflictLoop gw (stepOld gw) (gw.agents.length + 1)
      (stepApplied gw acts, evalInit gw (stepApplied gw acts))
  rw [stepApplied_sc, evalInit_sc, conflictLoop_sc]

lemma stepFinal_sc (gw : GridWorld) (c k : Nat) (acts : List Int) :
    stepFinal { gw with step_count := c, max_steps := k } acts = stepFinal gw acts := by
  show finalPhase gw (stepLooped { gw with step_count := c, max_steps := k } acts).1
      (stepLooped { gw with step_count := c, max_steps := k } acts).2 =
    finalPhase gw (stepLooped gw acts).1 (stepLooped gw acts).2
  rw [stepLooped_sc]

/-- C9: `step` increments the step counter by exactly one and never consults
`max_steps`: the roster, the rewards/done outputs and the random cursor of a
step are unchanged when the entering step counter or the step budget are
replaced by arbitrary values, so reaching or exceeding `max_steps` causes no
truncation. -/
theorem c9_step_counter_increments_and_max_steps_unused :
    (∀ (gw : GridWorld) (acts : List Int) (c₁ k₁ c₂ k₂ : Nat),
      (stepCore { gw with step_count := c₁, max_steps := k₁ } acts).1.agents =
        (stepCore { gw with step_count := c₂, max_steps := k₂ } acts).1.agents ∧
      (stepCore { gw with step_count := c₁, max_steps := k₁ } acts).2 =
        (stepCore { gw with step_count := c₂, max_steps := k₂ } acts).2 ∧
      (stepCore { gw with step_count := c₁, max_steps := k₁ } acts).1.rngCursor =
        (stepCore { gw with step_count := c₂, max_steps := k₂ } acts).1.rngCursor) ∧
    (∀ (gw : GridWorld) (acts : List Int),
      (stepCore gw acts).1.step_count = gw.step_count + 1 ∧
      (stepCore gw acts).1.max_steps = gw.max_steps) := by
  constructor
  · intro gw acts c₁ k₁ c₂ k₂
    refine ⟨?_, ?_, ?_⟩
    · show stepFinal { gw with step_count := c₁, max_steps := k₁ } acts =
        stepFinal { gw with step_count := c₂, max_steps := k₂ } acts
      rw [stepFinal_sc gw c₁ k₁ acts, stepFinal_sc gw c₂ k₂ acts]
    · show ((stepLooped { gw with step_count := c₁, max_steps := k₁ } acts).2.map (·.1),
        (stepFinal { gw with step_count := c₁, max_steps := k₁ } acts).map (·.done)) =
        ((stepLooped { gw with step_count := c₂, max_steps := k₂ } acts).2.map (·.1),
         (stepFinal { gw with step_count := c₂, max_steps := k₂ } acts).map (·.done))
      rw [stepFinal_sc gw c₁ k₁ acts, stepFinal_sc gw c₂ k₂ acts,
          stepLooped_sc gw c₁ k₁ acts, stepLooped_sc gw c₂ k₂ acts]
    · show (stepMoves { gw with step_count := c₁, max_steps := k₁ } acts).2 =
        (stepMoves { gw with step_count := c₂, max_steps := k₂ } acts).2
      rw [stepMoves_sc gw c₁ k₁ acts, stepMoves_sc gw c₂ k₂ acts]
  · exact fun _ _ => ⟨rfl, rfl⟩

/-- C8: an agent whose done flag is set at the start of a step is left
completely unchanged by the step: position, battery, goal and done flag. -/
theorem c8_done_agents_frozen (gw : GridWorld) (acts : List Int) (i : Nat)
    (hlen : acts.length = gw.agents.length) (hi : i < gw.agents.length)
    (hd : (gw.agents.getD i default).done = true) :
    (stepCore gw acts).1.agents.getD i default = gw.agents.getD i default := by
  show (stepFinal gw acts).getD i default = gw.agents.getD i default
  exact stepFinal_of_done gw acts i hlen hi hd

/-- Witness for C8 at a concrete environment with a done agent. -/
theorem c8_done_agents_frozen_witness :
    (stepCore gwDone [1, 1]).1.agents.getD 1 default = gwDone.agents.getD 1 default :=
  c8_done_agents_frozen gwDone [1, 1] 1 (by decide) (by decide) (by decide)

/-- C4 counterexample: in `rosterC4` the cell of agent 0 is inside the grid
and free, and the only other agent occupying it is agent 1, which is done;
yet `_reward_agent` flags agent 0 as illegal with the obstacle-tier reward.
This refutes the part of the claim saying that coinciding with a done
agent's position does not make a move illegal. -/
theorem c4_counterexample :
    reward_agent gwBase rosterC4 0 = (rewardsDefault.obstacles, true, false) ∧
    (rosterC4.getD 1 default).done = true ∧
    (rosterC4.getD 0 default).pos = (rosterC4.getD 1 default).pos ∧
    gwBase.cell 1 1 ≠ OBSTACLE ∧
    inBoundsPos gwBase (1, 1) := by
  exact ⟨rfl, by decide, by decide, by decide, by decide⟩

/-- C4 (amended): a move is flagged illegal by `_reward_agent` exactly when
the position is out of bounds, on an obstacle cell, or coincides with the
current position of a different agent — done or not. -/
theorem c4_illegal_characterization (gw : GridWorld) (agents : List GridworldAgent)
    (i : Nat) :
    (reward_agent gw agents i).2.1 = true ↔
      ¬ inBoundsPos gw (agents.getD i default).pos ∨
      gw.cell (agents.getD i default).pos.1 (agents.getD i default).pos.2 = OBSTACLE ∨
      ∃ j, j < agents.length ∧ j ≠ i ∧
        (agents.getD j default).pos = (agents.getD i default).pos := by
  rw [reward_agent_ill_eq, rewardBase_ill_iff, collideB_iff]

/-- C5: the conflict-resolution loop terminates on every input within
`agents.length` passes (so with fuel `agents.length + 1` every flag is
cleared and any larger fuel returns the same state), and an agent whose
position equals its recorded old position is never flagged by a
re-evaluation pass. -/
theorem c5_conflict_loop_terminates (gw : GridWorld) (oldPos : List (Int × Int))
    (agents : List GridworldAgent) (evals : List EvalT)
    (hlen : evals.length = agents.length) :
    anyIll (conflictLoop gw oldPos (agents.length + 1) (agents, evals)).2 = false ∧
    (∀ f, agents.length + 1 ≤ f →
      conflictLoop gw oldPos f (agents, evals) =
        conflictLoop gw oldPos (agents.length + 1) (agents, evals)) ∧
    (∀ (ags : List GridworldAgent) (evs : List EvalT) (i : Nat),
      (ags.getD i default).pos = oldPos.getD i ((0 : Int), (0 : Int)) →
      ((reevalPass gw ags oldPos evs).getD i eDflt).2.1 = false) := by
  refine ⟨loop_exits gw oldPos agents evals hlen, ?_, ?_⟩
  · intro f hf
    exact conflictLoop_stable gw oldPos _ _ (loop_exits gw oldPos agents evals hlen) f hf
  · intro ags evs i hpos
    by_cases hi : i < ags.length
    · rw [reevalPass_getD _ _ _ _ _ hi, if_pos (Or.inr hpos)]
    · rw [getD_of_len_le _ _ _ (by rw [reevalPass_length]; exact Nat.le_of_not_lt hi)]
      rfl

/-- Witness for C5 at a concrete state. -/
theorem c5_conflict_loop_terminates_witness :
    anyIll (conflictLoop gwBase [((0 : Int), (0 : Int)), ((0 : Int), (1 : Int))]
      (gwBase.agents.length + 1) (gwBase.agents, [eDflt, eDflt])).2 = false ∧
    conflictLoop gwBase [((0 : Int), (0 : Int)), ((0 : Int), (1 : Int))] 7
        (gwBase.agents, [eDflt, eDflt]) =
      conflictLoop gwBase [((0 : Int), (0 : Int)), ((0 : Int), (1 : Int))]
        (gwBase.agents.length + 1) (gwBase.agents, [eDflt, eDflt]) ∧
    ((reevalPass gwBase gwBase.agents [((0 : Int), (0 : Int)), ((0 : Int), (1 : Int))]
      [eDflt, eDflt]).getD 0 eDflt).2.1 = false := by
  have h := c5_conflict_loop_terminates gwBase
    [((0 : Int), (0 : Int)), ((0 : Int), (1 : Int))] gwBase.agents [eDflt, eDflt]
    (by decide)
  exact ⟨h.1, h.2.1 7 (by decide), h.2.2 gwBase.agents [eDflt, eDflt] 0 (by decide)⟩

/-- C7 counterexample: in `gwOne` the wind bias of the agent's row is zero,
yet the step consumes one draw from the shared random stream (the cursor
advances from 0 to 1).  This refutes the part of the claim saying that no
draw is consumed when the bias is zero. -/
theorem c7_counterexample :
    gwOne.colWind 2 = 0 ∧ gwOne.rngCursor = 0 ∧
    (stepCore gwOne [1]).1.rngCursor = 1 ∧ (1 : Nat) ≠ 0 :=
  ⟨rfl, rfl, by decide, by decide⟩

/-- C7 (amended): every step consumes exactly one draw per non-done agent,
whatever the wind bias; when the static bias of the agent's row is zero the
wind offset is zero and the draw is ignored (the proposed move does not
depend on the drawn noise). -/
theorem c7_one_draw_per_active_agent (gw : GridWorld) (acts : List Int)
    (hlen : acts.length = gw.agents.length) :
    (stepCore gw acts).1.rngCursor =
      gw.rngCursor + gw.agents.countP (fun a => !a.done) ∧
    (∀ (p : Int × Int) (a w : Int), gw.colWind p.1 = 0 →
      trans_function gw p a w = trans_function gw p a 0) := by
  constructor
  · show (stepMoves gw acts).2 = _
    unfold stepMoves
    rw [computeMoves_cursor, countP_zip_fst gw.agents acts hlen]
  · intro p a w h
    simp [trans_function, h]

/-- Witness for C7 at a concrete environment. -/
theorem c7_one_draw_per_active_agent_witness :
    (stepCore gwBase [0, 0]).1.rngCursor =
      gwBase.rngCursor + gwBase.agents.countP (fun a => !a.done) ∧
    trans_function gwBase (0, 0) 1 5 = trans_function gwBase (0, 0) 1 0 := by
  have h := c7_one_draw_per_active_agent gwBase [0, 0] (by decide)
  exact ⟨h.1, h.2 (0, 0) 1 5 rfl⟩

lemma step_depleted_flags (gw : GridWorld) (acts : List Int) (i : Nat)
    (hlen : acts.length = gw.agents.length) (hi : i < gw.agents.length)
    (hnd : (gw.agents.getD i default).done = false)
    (hb : (gw.agents.getD i default).battery - 10 ≤ 0) :
    ((stepLooped gw acts).2.getD i eDflt).1 = gw.rewards.battery_depleted ∧
    ((stepLooped gw acts).2.getD i eDflt).2.2 = true := by
  have hld : ((stepLooped gw acts).1.getD i default).done = false := by
    rw [stepLooped_done gw acts i hlen hi]; exact hnd
  have hlb : ((stepLooped gw acts).1.getD i default).battery ≤ 0 := by
    rw [stepLooped_battery gw acts i hlen hi hnd]; exact hb
  exact (stepLooped_inv gw acts).2.2.2.2.2.2 i
    (by rw [stepApplied_length]; exact hi) hld hlb

lemma stepFinal_batteryInv (gw : GridWorld) (acts : List Int)
    (hlen : acts.length = gw.agents.length) (hinv : BatteryInv gw.agents) :
    BatteryInv (stepFinal gw acts) := by
  intro i hi'
  have hi : i < gw.agents.length := by rw [stepFinal_length] at hi'; exact hi'
  by_cases hd : (gw.agents.getD i default).done = true
  · rw [stepFinal_of_done gw acts i hlen hi hd]
    exact hinv i hi
  · have hnd : (gw.agents.getD i default).done = false := by
      revert hd; cases (gw.agents.getD i default).done <;> simp
    obtain ⟨h0, h150, hdvd, hge⟩ := hinv i hi
    have hb10 : 10 ≤ (gw.agents.getD i default).battery := hge hnd
    have hbat := stepFinal_battery_eq gw acts i hlen hi hnd
    have hloopb := stepLooped_battery gw acts i hlen hi hnd
    by_cases hg : gw.cell ((stepLooped gw acts).1.getD i default).pos.1
        ((stepLooped gw acts).1.getD i default).pos.2 = GCS
    · rw [if_pos hg] at hbat
      rw [hbat]
      refine ⟨by norm_num [BATTERY], le_refl _, by norm_num [BATTERY], ?_⟩
      intro _
      norm_num [BATTERY]
    · rw [if_neg hg, hloopb] at hbat
      rw [hbat]
      refine ⟨by omega, by revert h150; unfold BATTERY; omega, ?_, ?_⟩
      · exact dvd_sub hdvd (dvd_refl 10)
      · intro hdone_false
        by_cases hz : (gw.agents.getD i default).battery - 10 ≤ 0
        · exfalso
          have hbit := (step_depleted_flags gw acts i hlen hi hnd hz).2
          have := stepFinal_done_eq gw acts i hlen hi hnd
          rw [hdone_false] at this
          rw [hbit] at this
          cases this
        · have hpos : 0 < (gw.agents.getD i default).battery - 10 := by omega
          exact Int.le_of_dvd hpos (dvd_sub hdvd (dvd_refl 10))

/-- C2: under the battery invariant of reachable states, a step keeps every
battery inside `[0, 150]` (and preserves the invariant); and a non-done
agent whose battery is exhausted at evaluation time (its entering battery
minus the 10-unit move cost is `≤ 0`) receives the `battery_depleted`
reward and comes out of the step with its done flag set, whatever else
happened in the step. -/
theorem c2_battery_bounds_and_depletion_override (gw : GridWorld) (acts : List Int)
    (hlen : acts.length = gw.agents.length) (hinv : BatteryInv gw.agents) :
    BatteryInv (stepCore gw acts).1.agents ∧
    (∀ i, i < (stepCore gw acts).1.agents.length →
      0 ≤ ((stepCore gw acts).1.agents.getD i default).battery ∧
      ((stepCore gw acts).1.agents.getD i default).battery ≤ BATTERY) ∧
    (∀ i, i < gw.agents.length → (gw.agents.getD i default).done = false →
      (gw.agents.getD i default).battery - 10 ≤ 0 →
      (stepCore gw acts).2.1.getD i 0 = gw.rewards.battery_depleted ∧
      (stepCore gw acts).2.2.getD i false = true) := by
  have hfin : BatteryInv (stepFinal gw acts) := stepFinal_batteryInv gw acts hlen hinv
  refine ⟨hfin, ?_, ?_⟩
  · intro i hi
    exact ⟨(hfin i hi).1, (hfin i hi).2.1⟩
  · intro i hi hnd hb
    have hflags := step_depleted_flags gw acts i hlen hi hnd hb
    refine ⟨?_, ?_⟩
    · rw [stepCore_rewards_getD gw acts i hi]
      exact hflags.1
    · rw [stepCore_dones_getD gw acts i hi]
      rw [stepFinal_done_eq gw acts i hlen hi hnd]
      exact hflags.2

/-- Witness for C2 at a concrete environment. -/
theorem c2_battery_bounds_and_depletion_override_witness :
    0 ≤ ((stepCore gwBase [1, 0]).1.agents.getD 0 default).battery ∧
    ((stepCore gwBase [1, 0]).1.agents.getD 0 default).battery ≤ BATTERY := by
  have h := c2_battery_bounds_and_depletion_override gwBase [1, 0] (by decide) (by decide)
  exact h.2.1 0 (by decide)

/-- C10: a non-done agent whose battery reaches 0 during a step (entering
battery at most 10) and whose final resolved position is a charging-station
cell is both recharged to the full 150 and still terminated with the
`battery_depleted` reward: recharging does not cancel the depletion-triggered
termination. -/
theorem c10_recharge_does_not_cancel_depletion (gw : GridWorld) (acts : List Int)
    (i : Nat) (hlen : acts.length = gw.agents.length) (hi : i < gw.agents.length)
    (hnd : (gw.agents.getD i default).done = false)
    (hb : (gw.agents.getD i default).battery ≤ 10)
    (hg : gw.cell ((stepCore gw acts).1.agents.getD i default).pos.1
        ((stepCore gw acts).1.agents.getD i default).pos.2 = GCS) :
    ((stepCore gw acts).1.agents.getD i default).battery = BATTERY ∧
    ((stepCore gw acts).1.agents.getD i default).done = true ∧
    (stepCore gw acts).2.1.getD i 0 = gw.rewards.battery_depleted := by
  have hgf : gw.cell ((stepFinal gw acts).getD i default).pos.1
      ((stepFinal gw acts).getD i default).pos.2 = GCS := hg
  rw [stepFinal_pos gw acts i hi] at hgf
  have hflags := step_depleted_flags gw acts i hlen hi hnd (by omega)
  refine ⟨?_, ?_, ?_⟩
  · show ((stepFinal gw acts).getD i default).battery = BATTERY
    rw [stepFinal_battery_eq gw acts i hlen hi hnd, if_pos hgf]
  · show ((stepFinal gw acts).getD i default).done = true
    rw [stepFinal_done_eq gw acts i hlen hi hnd]
    exact hflags.2
  · rw [stepCore_rewards_getD gw acts i hi]
    exact hflags.1

/-- Witness for C10: one agent with battery 10 stepping right onto the
charging station of `gwGcs`. -/
theorem c10_recharge_does_not_cancel_depletion_witness :
    ((stepCore gwGcs [1]).1.agents.getD 0 default).battery = BATTERY ∧
    ((stepCore gwGcs [1]).1.agents.getD 0 default).done = true ∧
    (stepCore gwGcs [1]).2.1.getD 0 0 = gwGcs.rewards.battery_depleted :=
  c10_recharge_does_not_cancel_depletion gwGcs [1] 0 (by decide) (by decide)
    (by decide) (by decide) (by decide)

/-- C1: if all non-done agents occupy pairwise distinct cells when `step` is
called, then after the conflict-resolution loop completes and the step
returns, no two agents that are still non-done occupy the same cell. -/
theorem c1_no_two_active_agents_share_cell (gw : GridWorld) (acts : List Int)
    (hlen : acts.length = gw.agents.length)
    (hdist : ∀ i, i < gw.agents.length → ∀ j, j < gw.agents.length → i ≠ j →
      (gw.agents.getD i default).done = false →
      (gw.agents.getD j default).done = false →
      (gw.agents.getD i default).pos ≠ (gw.agents.getD j default).pos)
    (i j : Nat) (hi : i < gw.agents.length) (hj : j < gw.agents.length) (hij : i ≠ j)
    (hdi : ((stepCore gw acts).1.agents.getD i default).done = false)
    (hdj : ((stepCore gw acts).1.agents.getD j default).done = false) :
    ((stepCore gw acts).1.agents.getD i default).pos ≠
      ((stepCore gw acts).1.agents.getD j default).pos := by
  have horig : ∀ k, k < gw.agents.length →
      ((stepCore gw acts).1.agents.getD k default).done = false →
      (gw.agents.getD k default).done = false := by
    intro k hk hdk
    by_contra h
    have ht : (gw.agents.getD k default).done = true := by
      revert h; cases (gw.agents.getD k default).done <;> simp
    have hfix : ((stepCore gw acts).1.agents.getD k default).done = true := by
      show ((stepFinal gw acts).getD k default).done = true
      rw [stepFinal_of_done gw acts k hlen hk ht]
      exact ht
    rw [hdk] at hfix
    cases hfix
  have hoi := horig i hi hdi
  have hoj := horig j hj hdj
  have hpi : ((stepCore gw acts).1.agents.getD i default).pos =
      ((stepLooped gw acts).1.getD i default).pos := stepFinal_pos gw acts i hi
  have hpj : ((stepCore gw acts).1.agents.getD j default).pos =
      ((stepLooped gw acts).1.getD j default).pos := stepFinal_pos gw acts j hj
  rw [hpi, hpj]
  have hLdi : ((stepLooped gw acts).1.getD i default).done = false := by
    rw [stepLooped_done gw acts i hlen hi]; exact hoi
  have hLdj : ((stepLooped gw acts).1.getD j default).done = false := by
    rw [stepLooped_done gw acts j hlen hj]; exact hoj
  have hnoIll := stepLooped_noIll gw acts
  by_cases hmi : ((stepLooped gw acts).1.getD i default).pos =
      (stepOld gw).getD i ((0 : Int), (0 : Int))
  · by_cases hmj : ((stepLooped gw acts).1.getD j default).pos =
        (stepOld gw).getD j ((0 : Int), (0 : Int))
    · rw [hmi, hmj, stepOld_getD gw i hi, stepOld_getD gw j hj]
      exact hdist i hi j hj hij hoi hoj
    · have hfresh := (stepLooped_inv gw acts).2.2.2.2.2.1 j
        (by rw [stepApplied_length]; exact hj) hLdj hmj
      have hflag : ((stepLooped gw acts).2.getD j eDflt).2.1 = false :=
        ill_of_anyIll_false _ hnoIll j
      rw [hfresh] at hflag
      exact reward_agent_legal_no_collision gw _ j hflag i
        (by rw [stepLooped_agents_length]; exact hi) hij
  · have hfresh := (stepLooped_inv gw acts).2.2.2.2.2.1 i
      (by rw [stepApplied_length]; exact hi) hLdi hmi
    have hflag : ((stepLooped gw acts).2.getD i eDflt).2.1 = false :=
      ill_of_anyIll_false _ hnoIll i
    rw [hfresh] at hflag
    have hne := reward_agent_legal_no_collision gw _ i hflag j
      (by rw [stepLooped_agents_length]; exact hj) (Ne.symm hij)
    exact fun h => hne h.symm

/-- Witness for C1 on a concrete two-agent step (a successful swap, so both
agents remain active and end on distinct cells). -/
theorem c1_no_two_active_agents_share_cell_witness :
    ((stepCore gwBase [1, 0]).1.agents.getD 0 default).pos ≠
      ((stepCore gwBase [1, 0]).1.agents.getD 1 default).pos :=
  c1_no_two_active_agents_share_cell gwBase [1, 0] (by decide)
    (by
      show ∀ i, i < 2 → ∀ j, j < 2 → i ≠ j →
        (gwBase.agents.getD i default).done = false →
        (gwBase.agents.getD j default).done = false →
        (gwBase.agents.getD i default).pos ≠ (gwBase.agents.getD j default).pos
      intro i hi j hj hij _ _
      interval_cases i <;> interval_cases j <;>
        first
        | exact absurd rfl hij
        | decide)
    0 1 (by decide) (by decide) (by decide) (by decide) (by decide)

lemma list_eq_of_getD {α : Type} (l l' : List α) (d : α) (hlen : l.length = l'.length)
    (h : ∀ i, i < l.length → l.getD i d = l'.getD i d) : l = l' := by
  apply List.ext_getElem hlen
  intro i h1 h2
  have hg := h i h1
  rw [List.getD_eq_getElem?_getD, List.getElem?_eq_getElem h1,
      List.getD_eq_getElem?_getD, List.getElem?_eq_getElem h2] at hg
  exact hg

/-- C3 counterexample: in `gwBase` the two agents at `(0,0)` and `(0,1)`
propose exactly each other's current cell (a swap), and after `step` their
positions are exchanged — neither move was reverted.  This refutes the claim
that a swap is cancelled symmetrically: the conflict check only detects two
agents on the same cell after the simultaneous application, which a clean
swap never produces. -/
theorem c3_counterexample :
    trans_function gwBase (0, 0) 1 (gwBase.noise 0) = (0, 1) ∧
    trans_function gwBase (0, 1) 0 (gwBase.noise 1) = (0, 0) ∧
    gwBase.agents.map (·.pos) = [(0, 0), (0, 1)] ∧
    (stepCore gwBase [1, 0]).1.agents.map (·.pos) = [(0, 1), (0, 0)] ∧
    (((0 : Int), (1 : Int)) ≠ ((0 : Int), (0 : Int))) :=
  ⟨by decide, by decide, by decide, by decide, by decide⟩

/-- C3 (amended): in a two-agent step in which each non-done agent proposes
the other's current cell (positions distinct, both target cells inside the
grid and not obstacles), neither agent is flagged illegal: both moves
succeed and the positions are exchanged.  No reverting occurs for a swap;
only two agents proposing the same cell are both reverted in one pass. -/
theorem c3_swap_is_not_reverted (gw : GridWorld) (a0 a1 : GridworldAgent)
    (act0 act1 : Int)
    (hag : gw.agents = [a0, a1])
    (h0 : a0.done = false) (h1 : a1.done = false)
    (hp : a0.pos ≠ a1.pos)
    (hm0 : trans_function gw a0.pos act0 (gw.noise gw.rngCursor) = a1.pos)
    (hm1 : trans_function gw a1.pos act1 (gw.noise (gw.rngCursor + 1)) = a0.pos)
    (hb0 : inBoundsPos gw a1.pos) (hb1 : inBoundsPos gw a0.pos)
    (ho0 : gw.cell a1.pos.1 a1.pos.2 ≠ OBSTACLE)
    (ho1 : gw.cell a0.pos.1 a0.pos.2 ≠ OBSTACLE) :
    (stepCore gw [act0, act1]).1.agents.map (·.pos) = [a1.pos, a0.pos] := by
  have hmv : (stepMoves gw [act0, act1]).1 = [a1.pos, a0.pos] := by
    unfold stepMoves
    rw [hag]
    show (computeMoves gw [(a0, act0), (a1, act1)] gw.rngCursor).1 = _
    simp only [computeMoves, h0, h1, Bool.false_eq_true, if_false, hm0, hm1]
  have happ : stepApplied gw [act0, act1] =
      [{ a0 with pos := a1.pos, battery := a0.battery - 10 },
       { a1 with pos := a0.pos, battery := a1.battery - 10 }] := by
    unfold stepApplied
    rw [hag, hmv]
    simp only [applyMoves, h0, h1, Bool.false_eq_true, if_false]
  have hIll0 : (reward_agent gw
      [{ a0 with pos := a1.pos, battery := a0.battery - 10 },
       { a1 with pos := a0.pos, battery := a1.battery - 10 }] 0).2.1 = false := by
    rw [reward_agent_ill_eq]
    cases hfl : (rewardBase gw
        [{ a0 with pos := a1.pos, battery := a0.battery - 10 },
         { a1 with pos := a0.pos, battery := a1.battery - 10 }] 0).2.1
    · rfl
    · exfalso
      rcases (rewardBase_ill_iff gw _ 0).mp hfl with hB | hO | hC
      · exact hB hb0
      · exact ho0 hO
      · rcases (collideB_iff _ _ _).mp hC with ⟨jj, hjj, hne, hpp⟩
        have hjj2 : jj < 2 := hjj
        interval_cases jj
        · exact hne rfl
        · exact hp (by simpa using hpp)
  have hIll1 : (reward_agent gw
      [{ a0 with pos := a1.pos, battery := a0.battery - 10 },
       { a1 with pos := a0.pos, battery := a1.battery - 10 }] 1).2.1 = false := by
    rw [reward_agent_ill_eq]
    cases hfl : (rewardBase gw
        [{ a0 with pos := a1.pos, battery := a0.battery - 10 },
         { a1 with pos := a0.pos, battery := a1.battery - 10 }] 1).2.1
    · rfl
    · exfalso
      rcases (rewardBase_ill_iff gw _ 1).mp hfl with hB | hO | hC
      · exact hB hb1
      · exact ho1 hO
      · rcases (collideB_iff _ _ _).mp hC with ⟨jj, hjj, hne, hpp⟩
        have hjj2 : jj < 2 := hjj
        interval_cases jj
        · exact hp (by simpa using hpp.symm)
        · exact hne rfl
  have hE : anyIll (evalInit gw (stepApplied gw [act0, act1])) = false := by
    rw [happ]
    apply List.any_eq_false.mpr
    intro e he
    simp only [evalInit, List.mem_map, List.mem_range] at he
    obtain ⟨idx, hidx, rfl⟩ := he
    simp only [List.length_cons, List.length_nil] at hidx
    interval_cases idx
    · simp only [List.getD_cons_zero]
      rw [if_neg (by simp [h0])]
      rw [hIll0]
      simp
    · simp only [List.getD_cons_succ, List.getD_cons_zero]
      rw [if_neg (by simp [h1])]
      rw [hIll1]
      simp
  have hloop : stepLooped gw [act0, act1] =
      (stepApplied gw [act0, act1], evalInit gw (stepApplied gw [act0, act1])) := by
    unfold stepLooped
    exact conflictLoop_of_noIll _ _ _ _ hE
  show (stepFinal gw [act0, act1]).map (·.pos) = [a1.pos, a0.pos]
  apply list_eq_of_getD _ _ ((0 : Int), (0 : Int))
  · rw [List.length_map, stepFinal_length, hag]
    rfl
  · intro idx hidx
    rw [List.length_map, stepFinal_length, hag] at hidx
    simp only [List.length_cons, List.length_nil] at hidx
    have hidx' : idx < gw.agents.length := by rw [hag]; exact hidx
    rw [getD_map_of_lt (fun a : GridworldAgent => a.pos) (stepFinal gw [act0, act1])
          idx (by rw [stepFinal_length]; exact hidx') ((0 : Int), (0 : Int)) default,
        stepFinal_pos gw [act0, act1] idx hidx', hloop]
    rw [happ]
    interval_cases idx
    · simp
    · simp

/-- Witness for C3's amended statement at the concrete swap in `gwBase`. -/
theorem c3_swap_is_not_reverted_witness :
    (stepCore gwBase [1, 0]).1.agents.map (·.pos) =
      [((0 : Int), (1 : Int)), ((0 : Int), (0 : Int))] :=
  c3_swap_is_not_reverted gwBase ⟨(0, 0), (4, 4), 150, false⟩ ⟨(0, 1), (3, 3), 150, false⟩
    1 0 rfl rfl rfl (by decide) (by decide) (by decide) (by decide) (by decide)
    (by decide) (by decide)
